import Mathlib

/-!
Verification of the Snowflake ID generator
(`src/snowflake/snowflake_generator.py`).

The Python class `SnowflakeGenerator` is embedded shallowly:

* Python `int` is modelled by `Int` (Python integers are arbitrary
  precision, two's-complement for bitwise operations; Mathlib's
  `Int.lor`, `Int.land`, `<<<` and `>>>` implement exactly these
  two's-complement semantics).
* The mutable instance state (`machine_id`, `sequence`,
  `last_timestamp`) is a structure threaded through the operations.
* The wall clock (`time.time() * 1000`, read through
  `_current_timestamp`) is modelled by a list of successive integer
  readings that the operations consume in order.  A call that needs
  more readings than supplied returns `none` (in Python this is the
  busy-wait loop still spinning).
* `raise` is modelled by an `Except`-style error result.  The spec's
  error taxonomy names the two conditions `InvalidConfiguration`
  (Python: `ValueError` in `__init__`) and `ClockRegression`
  (Python: `Exception("Clock moved backwards...")`).
-/

namespace Snowflake

/-- Custom epoch (January 1, 2025 00:00:00 UTC), class attribute `EPOCH`. -/
def EPOCH : Int := 1735689600000

/-- Class attribute `TIMESTAMP_SHIFT`. -/
def TIMESTAMP_SHIFT : Int := 22

/-- Class attribute `MACHINE_ID_SHIFT`. -/
def MACHINE_ID_SHIFT : Int := 12

/-- Class attribute `MAX_MACHINE_ID` (2^10 - 1). -/
def MAX_MACHINE_ID : Int := 1023

/-- Class attribute `MAX_SEQUENCE` (2^12 - 1). -/
def MAX_SEQUENCE : Int := 4095

/-- The spec's error taxonomy for the generator.  `invalidConfiguration`
is the `ValueError` raised by `__init__`; `clockRegression` is the
`Exception("Clock moved backwards. Refusing to generate ID")` raised by
`generate_id`. -/
inductive SnowflakeError where
  | invalidConfiguration
  | clockRegression
deriving DecidableEq, Repr

/-- The mutable instance state of a `SnowflakeGenerator` object
(the `threading.Lock` serialises calls; a single call is modelled as
one atomic state transition, so the lock itself has no residue in the
model). -/
structure SnowflakeGenerator where
  machine_id : Int
  sequence : Int
  last_timestamp : Int
deriving DecidableEq, Repr

/-- `SnowflakeGenerator.__init__`: validates `machine_id` and
initialises `sequence = 0` and `last_timestamp = -1` (the
"never generated" sentinel). -/
def SnowflakeGenerator.init (machine_id : Int) :
    Except SnowflakeError SnowflakeGenerator :=
  if machine_id < 0 ∨ machine_id > MAX_MACHINE_ID then
    .error .invalidConfiguration
  else
    .ok { machine_id := machine_id, sequence := 0, last_timestamp := -1 }

/-- `SnowflakeGenerator._wait_next_millis`: busy-polls the clock until a
reading strictly greater than `last_timestamp` appears.  `clock` is the
stream of future clock readings; the result is the first reading above
`last_timestamp` together with the unconsumed rest of the stream, or
`none` if the supplied readings run out (the Python loop would still be
spinning). -/
def _wait_next_millis (last_timestamp : Int) (clock : List Int) :
    Option (Int × List Int) :=
  match clock with
  | [] => none
  | timestamp :: rest =>
    if timestamp ≤ last_timestamp then _wait_next_millis last_timestamp rest
    else some (timestamp, rest)

/-- The ID assembly expression of `generate_id`:
`((timestamp - EPOCH) << TIMESTAMP_SHIFT) | (machine_id << MACHINE_ID_SHIFT) | sequence`
(Python's `<<` and `|` on arbitrary-precision two's-complement integers,
i.e. `Int.shiftLeft` and `Int.lor`). -/
def encode (timestamp machine_id sequence : Int) : Int :=
  Int.lor
    (Int.lor ((timestamp - EPOCH) <<< TIMESTAMP_SHIFT)
      (machine_id <<< MACHINE_ID_SHIFT))
    sequence

/-- `SnowflakeGenerator.generate_id`.  The head of `clock` is the reading
taken by `_current_timestamp()` at the top of the call; further elements
feed the `_wait_next_millis` busy-wait if it runs.  Returns the call's
result (`.ok id` or `.error .clockRegression`), the state of the object
after the call, and the unconsumed clock readings; `none` means the
busy-wait exhausted the supplied readings. -/
def generate_id (st : SnowflakeGenerator) (clock : List Int) :
    Option (Except SnowflakeError Int × SnowflakeGenerator × List Int) :=
  match clock with
  | [] => none
  | timestamp :: rest =>
    if timestamp < st.last_timestamp then
      some (.error .clockRegression, st, rest)
    else if timestamp = st.last_timestamp then
      -- self.sequence = (self.sequence + 1) & self.MAX_SEQUENCE
      -- (written inline below; the updated state carries the same value)
      if Int.land (st.sequence + 1) MAX_SEQUENCE = 0 then
        match _wait_next_millis st.last_timestamp rest with
        | none => none
        | some (timestamp2, rest2) =>
          some (.ok (encode timestamp2 st.machine_id
              (Int.land (st.sequence + 1) MAX_SEQUENCE)),
            { st with
              sequence := Int.land (st.sequence + 1) MAX_SEQUENCE,
              last_timestamp := timestamp2 },
            rest2)
      else
        some (.ok (encode timestamp st.machine_id
            (Int.land (st.sequence + 1) MAX_SEQUENCE)),
          { st with
            sequence := Int.land (st.sequence + 1) MAX_SEQUENCE,
            last_timestamp := timestamp },
          rest)
    else
      some (.ok (encode timestamp st.machine_id 0),
        { st with
          sequence := 0,
          last_timestamp := timestamp },
        rest)

/-- Two-digit zero padding used by `strftime` fields `%m %d %H %M %S`. -/
def pad2 (n : Int) : String :=
  if n < 10 then "0" ++ toString n else toString n

/-- Gregorian civil date from a day count relative to 1970-01-01
(standard civil-from-days algorithm; `Int` division here is floor
division since all divisors are positive).  Models the date part of
`time.gmtime`. -/
def civilFromDays (z0 : Int) : Int × Int × Int :=
  let z := z0 + 719468
  let era := z / 146097
  let doe := z - era * 146097
  let yoe := (doe - doe / 1460 + doe / 36524 - doe / 146096) / 365
  let y := yoe + era * 400
  let doy := doe - (365 * yoe + yoe / 4 - yoe / 100)
  let mp := (5 * doy + 2) / 153
  let d := doy - (153 * mp + 2) / 5 + 1
  let m := mp + (if mp < 10 then 3 else -9)
  (y + (if m ≤ 2 then 1 else 0), m, d)

/-- Model of `time.strftime('%Y-%m-%d %H:%M:%S', time.gmtime(seconds))`
(Python standard library, not repository code): proleptic Gregorian
calendar in UTC, no leap seconds.  Total on all of `Int`. -/
def formatUTC (seconds : Int) : String :=
  let days := seconds / 86400
  let sod := seconds % 86400
  let ymd := civilFromDays days
  toString ymd.1 ++ "-" ++ pad2 ymd.2.1 ++ "-" ++ pad2 ymd.2.2 ++ " " ++
    pad2 (sod / 3600) ++ ":" ++ pad2 (sod % 3600 / 60) ++ ":" ++
    pad2 (sod % 60)

/-- The dict returned by `SnowflakeGenerator.parse_id`. -/
structure ParsedId where
  id : Int
  timestamp : Int
  machine_id : Int
  sequence : Int
  datetime : String
deriving DecidableEq, Repr

/-- `SnowflakeGenerator.parse_id`: structural decode of an ID.
`>>` on a Python int is floor division by a power of two and `&` with an
all-ones mask keeps the low bits, both in two's complement; these are
exactly `Int.shiftRight` and `Int.land`.  The `datetime` field models
`time.strftime('%Y-%m-%d %H:%M:%S', time.gmtime(timestamp / 1000))`:
for every value the 41-bit layout can produce, `timestamp / 1000` as a
binary double is more than one ulp away from the nearest integer unless
it is one exactly, so `time.gmtime`'s floor conversion of the float
agrees with integer floor division by 1000. -/
def parse_id (snowflake_id : Int) : ParsedId :=
  let timestamp := (snowflake_id >>> TIMESTAMP_SHIFT) + EPOCH
  let machine_id := Int.land (snowflake_id >>> MACHINE_ID_SHIFT) MAX_MACHINE_ID
  let sequence := Int.land snowflake_id MAX_SEQUENCE
  { id := snowflake_id
    timestamp := timestamp
    machine_id := machine_id
    sequence := sequence
    datetime := formatUTC (timestamp / 1000) }

/-- A sequence of consecutive `generate_id` calls on one instance:
performs `n` calls, all of which must succeed with an ID, collecting the
IDs in call order.  Returns `none` if any call fails, raises, or runs
out of clock readings. -/
def genRun (st : SnowflakeGenerator) (clock : List Int) :
    Nat → Option (List Int × SnowflakeGenerator × List Int)
  | 0 => some ([], st, clock)
  | n + 1 =>
    match generate_id st clock with
    | some (.ok id, st2, clock2) =>
      match genRun st2 clock2 n with
      | some (ids, st3, clock3) => some (id :: ids, st3, clock3)
      | none => none
    | _ => none

/-- The constructor establishes, and every call preserves, these bounds
on the instance state. -/
def Inv (st : SnowflakeGenerator) : Prop :=
  0 ≤ st.machine_id ∧ st.machine_id ≤ MAX_MACHINE_ID ∧
    0 ≤ st.sequence ∧ st.sequence ≤ MAX_SEQUENCE

instance (st : SnowflakeGenerator) : Decidable (Inv st) := by
  unfold Inv; infer_instance

/-- Executable check that a list of clock readings is non-decreasing. -/
def clockNondecreasing : List Int → Bool
  | [] => true
  | [_] => true
  | a :: b :: r => decide (a ≤ b) && clockNondecreasing (b :: r)

/-- The additive value of the ID the state's fields would encode to;
`generate_id` returns exactly `key` of its post-state (see
`encode_eq`). -/
def key (st : SnowflakeGenerator) : Int :=
  (st.last_timestamp - EPOCH) * 4194304 + st.machine_id * 4096 + st.sequence

/-!  ## Bridging Python's bitwise operators to arithmetic

Python integers are arbitrary-precision two's complement, so
`x >> n` is floor division by `2 ^ n`, `x & (2 ^ n - 1)` is `x mod 2 ^ n`,
`x << n` is multiplication by `2 ^ n`, and `|` of values with disjoint
binary digits is addition.  `Int.lor`/`Int.land`/`<<<`/`>>>` implement
the same two's complement semantics; the lemmas below establish the
arithmetic readings, covering negative operands as well. -/

theorem nat_ldiff_low_ones (n q b : ℕ) (hb : b < 2 ^ n) :
    Nat.ldiff (2 ^ n * q + (2 ^ n - 1)) b = 2 ^ n * q + (2 ^ n - 1 - b) := by
  apply Nat.eq_of_testBit_eq
  intro j
  have hpos := Nat.two_pow_pos n
  have h1 : 2 ^ n - 1 < 2 ^ n := by omega
  have h2 : 2 ^ n - 1 - b < 2 ^ n := by omega
  rw [Nat.testBit_ldiff,
    Nat.testBit_mul_pow_two_add q h1 j,
    Nat.testBit_mul_pow_two_add q h2 j]
  by_cases hj : j < n
  · have e1 : 2 ^ n - 1 - b = 2 ^ n - (b + 1) := by omega
    rw [if_pos hj, if_pos hj, e1, Nat.testBit_two_pow_sub_succ hb,
      Nat.testBit_two_pow_sub_one]
  · have hbj : Nat.testBit b j = false :=
      Nat.testBit_lt_two_pow
        (Nat.lt_of_lt_of_le hb (Nat.pow_le_pow_right (by norm_num) (by omega)))
    rw [if_neg hj, if_neg hj, hbj]
    simp

theorem nat_ldiff_mask (n a : ℕ) :
    Nat.ldiff (2 ^ n - 1) a = 2 ^ n - 1 - a % 2 ^ n := by
  apply Nat.eq_of_testBit_eq
  intro j
  have hmod : a % 2 ^ n < 2 ^ n := Nat.mod_lt _ (Nat.two_pow_pos n)
  have e1 : 2 ^ n - 1 - a % 2 ^ n = 2 ^ n - (a % 2 ^ n + 1) := by omega
  rw [Nat.testBit_ldiff, Nat.testBit_two_pow_sub_one, e1,
    Nat.testBit_two_pow_sub_succ hmod, Nat.testBit_mod_two_pow]
  by_cases hj : j < n <;> simp [hj]

/-- Python `x & 4095` (mask `MAX_SEQUENCE = 2^12 - 1`) is `x mod 2^12`,
for every integer `x` including negatives. -/
theorem land4095_eq (x : Int) : Int.land x 4095 = x % 4096 := by
  cases x with
  | ofNat a =>
    have h1 : Int.land (Int.ofNat a) 4095 = Int.ofNat (Nat.land a 4095) := rfl
    have h2 : Nat.land a 4095 = a % 4096 := by
      have h := Nat.and_pow_two_sub_one_eq_mod a 12
      norm_num at h
      exact h
    rw [h1, h2]
    simp only [Int.ofNat_eq_coe]
    omega
  | negSucc a =>
    have h1 : Int.land (Int.negSucc a) 4095 = Int.ofNat (Nat.ldiff 4095 a) := rfl
    have h2 : Nat.ldiff 4095 a = 4095 - a % 4096 := by
      have h := nat_ldiff_mask 12 a
      norm_num at h
      exact h
    rw [h1, h2, Int.negSucc_eq]
    simp only [Int.ofNat_eq_coe]
    omega

/-- Python `x & 1023` (mask `MAX_MACHINE_ID = 2^10 - 1`) is `x mod 2^10`. -/
theorem land1023_eq (x : Int) : Int.land x 1023 = x % 1024 := by
  cases x with
  | ofNat a =>
    have h1 : Int.land (Int.ofNat a) 1023 = Int.ofNat (Nat.land a 1023) := rfl
    have h2 : Nat.land a 1023 = a % 1024 := by
      have h := Nat.and_pow_two_sub_one_eq_mod a 10
      norm_num at h
      exact h
    rw [h1, h2]
    simp only [Int.ofNat_eq_coe]
    omega
  | negSucc a =>
    have h1 : Int.land (Int.negSucc a) 1023 = Int.ofNat (Nat.ldiff 1023 a) := rfl
    have h2 : Nat.ldiff 1023 a = 1023 - a % 1024 := by
      have h := nat_ldiff_mask 10 a
      norm_num at h
      exact h
    rw [h1, h2, Int.negSucc_eq]
    simp only [Int.ofNat_eq_coe]
    omega

/-- Python `x << 22` is multiplication by `2^22`. -/
theorem shiftLeft22_eq (x : Int) : x <<< (22 : Int) = x * 4194304 := by
  have h := Int.shiftLeft_eq_mul_pow x 22
  norm_num at h
  exact h

/-- Python `x << 12` is multiplication by `2^12`. -/
theorem shiftLeft12_eq (x : Int) : x <<< (12 : Int) = x * 4096 := by
  have h := Int.shiftLeft_eq_mul_pow x 12
  norm_num at h
  exact h

/-- Python `x >> 22` is floor division by `2^22` (with a positive divisor
Lean's Euclidean `/` is floor division). -/
theorem shiftRight22_eq (x : Int) : x >>> (22 : Int) = x / 4194304 := by
  cases x with
  | ofNat a =>
    have h1 : Int.ofNat a >>> (22 : Int) = Int.ofNat (a >>> 22) := rfl
    have h2 : Int.ofNat a / (4194304 : Int) = Int.ofNat (a / 4194304) := rfl
    rw [h1, h2, Nat.shiftRight_eq_div_pow]
  | negSucc a =>
    have h1 : Int.negSucc a >>> (22 : Int) = Int.negSucc (a >>> 22) := rfl
    have h2 : Int.negSucc a / (4194304 : Int) = Int.negSucc (a / 4194304) := rfl
    rw [h1, h2, Nat.shiftRight_eq_div_pow]

/-- Python `x >> 12` is floor division by `2^12`. -/
theorem shiftRight12_eq (x : Int) : x >>> (12 : Int) = x / 4096 := by
  cases x with
  | ofNat a =>
    have h1 : Int.ofNat a >>> (12 : Int) = Int.ofNat (a >>> 12) := rfl
    have h2 : Int.ofNat a / (4096 : Int) = Int.ofNat (a / 4096) := rfl
    rw [h1, h2, Nat.shiftRight_eq_div_pow]
  | negSucc a =>
    have h1 : Int.negSucc a >>> (12 : Int) = Int.negSucc (a >>> 12) := rfl
    have h2 : Int.negSucc a / (4096 : Int) = Int.negSucc (a / 4096) := rfl
    rw [h1, h2, Nat.shiftRight_eq_div_pow]

/-- Python `|` with a multiple of `2^22` on the left and a value below
`2^22` on the right is addition (the operands occupy disjoint bits). -/
theorem lor_mul22_add (h d : Int) (hd0 : 0 ≤ d) (hd : d < 4194304) :
    Int.lor (h * 4194304) d = h * 4194304 + d := by
  obtain ⟨b, rfl⟩ : ∃ b : ℕ, d = Int.ofNat b :=
    ⟨d.toNat, (Int.toNat_of_nonneg hd0).symm⟩
  have hb : b < 4194304 := by
    simp only [Int.ofNat_eq_coe] at hd
    omega
  cases h with
  | ofNat a =>
    have h1 : Int.ofNat a * (4194304 : Int) = Int.ofNat (a * 4194304) := rfl
    have h2 : Int.lor (Int.ofNat (a * 4194304)) (Int.ofNat b) =
        Int.ofNat (Nat.lor (a * 4194304) b) := rfl
    have h3 : a * 4194304 + b = Nat.lor (a * 4194304) b := by
      have h4 := Nat.mul_add_lt_is_or (b := b) (i := 22) (by omega) a
      norm_num at h4
      rw [Nat.mul_comm 4194304 a] at h4
      exact h4
    rw [h1, h2, ← h3]
    simp only [Int.ofNat_eq_coe]
    omega
  | negSucc a =>
    have hM : Int.negSucc a * 4194304 = Int.negSucc ((a + 1) * 4194304 - 1) := by
      rw [Int.negSucc_eq, Int.negSucc_eq]
      omega
    have h2 : Int.lor (Int.negSucc ((a + 1) * 4194304 - 1)) (Int.ofNat b) =
        Int.negSucc (Nat.ldiff ((a + 1) * 4194304 - 1) b) := rfl
    have hform : (a + 1) * 4194304 - 1 = 4194304 * a + 4194303 := by omega
    have h4 : Nat.ldiff ((a + 1) * 4194304 - 1) b = 4194304 * a + (4194303 - b) := by
      rw [hform]
      have h5 := nat_ldiff_low_ones 22 a b (by omega)
      norm_num at h5
      exact h5
    rw [hM, h2, h4, Int.negSucc_eq, Int.negSucc_eq]
    simp only [Int.ofNat_eq_coe]
    omega

/-- Python `|` with a multiple of `2^12` on the left and a value below
`2^12` on the right is addition. -/
theorem lor_mul12_add (h d : Int) (hd0 : 0 ≤ d) (hd : d < 4096) :
    Int.lor (h * 4096) d = h * 4096 + d := by
  obtain ⟨b, rfl⟩ : ∃ b : ℕ, d = Int.ofNat b :=
    ⟨d.toNat, (Int.toNat_of_nonneg hd0).symm⟩
  have hb : b < 4096 := by
    simp only [Int.ofNat_eq_coe] at hd
    omega
  cases h with
  | ofNat a =>
    have h1 : Int.ofNat a * (4096 : Int) = Int.ofNat (a * 4096) := rfl
    have h2 : Int.lor (Int.ofNat (a * 4096)) (Int.ofNat b) =
        Int.ofNat (Nat.lor (a * 4096) b) := rfl
    have h3 : a * 4096 + b = Nat.lor (a * 4096) b := by
      have h4 := Nat.mul_add_lt_is_or (b := b) (i := 12) (by omega) a
      norm_num at h4
      rw [Nat.mul_comm 4096 a] at h4
      exact h4
    rw [h1, h2, ← h3]
    simp only [Int.ofNat_eq_coe]
    omega
  | negSucc a =>
    have hM : Int.negSucc a * 4096 = Int.negSucc ((a + 1) * 4096 - 1) := by
      rw [Int.negSucc_eq, Int.negSucc_eq]
      omega
    have h2 : Int.lor (Int.negSucc ((a + 1) * 4096 - 1)) (Int.ofNat b) =
        Int.negSucc (Nat.ldiff ((a + 1) * 4096 - 1) b) := rfl
    have hform : (a + 1) * 4096 - 1 = 4096 * a + 4095 := by omega
    have h4 : Nat.ldiff ((a + 1) * 4096 - 1) b = 4096 * a + (4095 - b) := by
      rw [hform]
      have h5 := nat_ldiff_low_ones 12 a b (by omega)
      norm_num at h5
      exact h5
    rw [hM, h2, h4, Int.negSucc_eq, Int.negSucc_eq]
    simp only [Int.ofNat_eq_coe]
    omega

/-- The ID assembly of `generate_id` in arithmetic form: when the
machine and sequence fields are within their bit widths, the bitwise
assembly is plain positional arithmetic. -/
theorem encode_eq (t m s : Int) (hm0 : 0 ≤ m) (hm1 : m ≤ 1023)
    (hs0 : 0 ≤ s) (hs1 : s ≤ 4095) :
    encode t m s = (t - EPOCH) * 4194304 + m * 4096 + s := by
  unfold encode TIMESTAMP_SHIFT MACHINE_ID_SHIFT
  rw [shiftLeft22_eq, shiftLeft12_eq,
    lor_mul22_add (t - EPOCH) (m * 4096) (by omega) (by omega)]
  have h2 : (t - EPOCH) * 4194304 + m * 4096 = ((t - EPOCH) * 1024 + m) * 4096 := by
    ring
  rw [h2, lor_mul12_add ((t - EPOCH) * 1024 + m) s hs0 (by omega)]

/-- `parse_id` is a total structural decode: every field has an explicit
arithmetic value, for every integer input. -/
theorem parse_fields (x : Int) :
    (parse_id x).id = x ∧
    (parse_id x).timestamp = x / 4194304 + EPOCH ∧
    (parse_id x).machine_id = x / 4096 % 1024 ∧
    (parse_id x).sequence = x % 4096 := by
  unfold parse_id TIMESTAMP_SHIFT MACHINE_ID_SHIFT MAX_MACHINE_ID MAX_SEQUENCE
  refine ⟨rfl, ?_, ?_, ?_⟩
  · show x >>> (22 : Int) + EPOCH = x / 4194304 + EPOCH
    rw [shiftRight22_eq]
  · show Int.land (x >>> (12 : Int)) 1023 = x / 4096 % 1024
    rw [shiftRight12_eq, land1023_eq]
  · show Int.land x 4095 = x % 4096
    rw [land4095_eq]

/-- Decoding an encoded ID recovers the three fields exactly, whenever
the machine and sequence fields are within their bit widths. -/
theorem parse_encode (t m s : Int) (hm0 : 0 ≤ m) (hm1 : m ≤ 1023)
    (hs0 : 0 ≤ s) (hs1 : s ≤ 4095) :
    (parse_id (encode t m s)).timestamp = t ∧
    (parse_id (encode t m s)).machine_id = m ∧
    (parse_id (encode t m s)).sequence = s := by
  rw [encode_eq t m s hm0 hm1 hs0 hs1]
  obtain ⟨h1, h2, h3, h4⟩ := parse_fields ((t - EPOCH) * 4194304 + m * 4096 + s)
  have hE : EPOCH = 1735689600000 := rfl
  refine ⟨?_, ?_, ?_⟩
  · rw [h2]; omega
  · rw [h3]; omega
  · rw [h4]; omega

theorem wait_spec {last : Int} {clock : List Int} {t : Int} {rest : List Int}
    (h : _wait_next_millis last clock = some (t, rest)) :
    last < t ∧ t ∈ clock := by
  induction clock with
  | nil => simp [_wait_next_millis] at h
  | cons c cs ih =>
    simp only [_wait_next_millis] at h
    by_cases hc : c ≤ last
    · rw [if_pos hc] at h
      obtain ⟨h1, h2⟩ := ih h
      exact ⟨h1, List.mem_cons_of_mem c h2⟩
    · rw [if_neg hc] at h
      simp only [Option.some.injEq, Prod.mk.injEq] at h
      obtain ⟨rfl, rfl⟩ := h
      exact ⟨by omega, List.mem_cons_self c cs⟩

theorem init_Inv {m : Int} {st : SnowflakeGenerator}
    (h : SnowflakeGenerator.init m = .ok st) : Inv st := by
  unfold SnowflakeGenerator.init at h
  by_cases hc : m < 0 ∨ m > MAX_MACHINE_ID
  · rw [if_pos hc] at h; simp at h
  · rw [if_neg hc] at h
    simp only [Except.ok.injEq] at h
    subst h
    unfold MAX_MACHINE_ID at hc
    push_neg at hc
    unfold Inv MAX_MACHINE_ID MAX_SEQUENCE
    dsimp only
    omega

/-- Shape of every successful `generate_id` call: the returned ID is the
bitwise assembly of the post-state's `last_timestamp` and `sequence`
with the fixed `machine_id`, the machine id is unchanged, and the stored
timestamp was one of the clock readings. -/
theorem generate_ok_shape {st : SnowflakeGenerator} {clock : List Int}
    {id : Int} {st2 : SnowflakeGenerator} {rest : List Int}
    (h : generate_id st clock = some (.ok id, st2, rest)) :
    id = encode st2.last_timestamp st.machine_id st2.sequence ∧
      st2.machine_id = st.machine_id ∧ st2.last_timestamp ∈ clock := by
  cases clock with
  | nil => simp [generate_id] at h
  | cons timestamp rest0 =>
    simp only [generate_id] at h
    by_cases h1 : timestamp < st.last_timestamp
    · rw [if_pos h1] at h
      simp at h
    · rw [if_neg h1] at h
      by_cases h2 : timestamp = st.last_timestamp
      · rw [if_pos h2] at h
        by_cases h3 : Int.land (st.sequence + 1) MAX_SEQUENCE = 0
        · rw [if_pos h3] at h
          cases hw : _wait_next_millis st.last_timestamp rest0 with
          | none => rw [hw] at h; simp at h
          | some pr =>
            obtain ⟨t2, rest2⟩ := pr
            rw [hw] at h
            simp only [Option.some.injEq, Prod.mk.injEq, Except.ok.injEq] at h
            obtain ⟨hid, hst2, hrest⟩ := h
            subst hst2
            exact ⟨hid.symm, rfl, List.mem_cons_of_mem _ (wait_spec hw).2⟩
        · rw [if_neg h3] at h
          simp only [Option.some.injEq, Prod.mk.injEq, Except.ok.injEq] at h
          obtain ⟨hid, hst2, hrest⟩ := h
          subst hst2
          exact ⟨hid.symm, rfl, List.mem_cons_self _ _⟩
      · rw [if_neg h2] at h
        simp only [Option.some.injEq, Prod.mk.injEq, Except.ok.injEq] at h
        obtain ⟨hid, hst2, hrest⟩ := h
        subst hst2
        exact ⟨hid.symm, rfl, List.mem_cons_self _ _⟩

/-- Full description of a successful `generate_id` call from a state
satisfying the invariant: the invariant is preserved, the machine id is
fixed, the stored timestamp never decreases, the state's encoded value
strictly increases, and the returned ID is exactly the post-state's
encoded value (in arithmetic form, `key`). -/
theorem generate_id_ok {st : SnowflakeGenerator} {clock : List Int}
    {id : Int} {st2 : SnowflakeGenerator} {rest : List Int}
    (hInv : Inv st)
    (h : generate_id st clock = some (.ok id, st2, rest)) :
    Inv st2 ∧ st2.machine_id = st.machine_id ∧
      st.last_timestamp ≤ st2.last_timestamp ∧
      key st < key st2 ∧ id = key st2 := by
  obtain ⟨hm0, hm1, hs0, hs1⟩ := hInv
  unfold MAX_MACHINE_ID at hm1
  unfold MAX_SEQUENCE at hs1
  have hE : EPOCH = 1735689600000 := rfl
  have hland : Int.land (st.sequence + 1) (4095 : Int) =
      (st.sequence + 1) % 4096 := land4095_eq (st.sequence + 1)
  cases clock with
  | nil => simp [generate_id] at h
  | cons timestamp rest0 =>
    simp only [generate_id] at h
    unfold MAX_SEQUENCE at h
    by_cases h1 : timestamp < st.last_timestamp
    · rw [if_pos h1] at h
      simp at h
    · rw [if_neg h1] at h
      by_cases h2 : timestamp = st.last_timestamp
      · rw [if_pos h2] at h
        by_cases h3 : Int.land (st.sequence + 1) (4095 : Int) = 0
        · rw [if_pos h3] at h
          rw [hland] at h3
          have hs4095 : st.sequence = 4095 := by omega
          cases hw : _wait_next_millis st.last_timestamp rest0 with
          | none => rw [hw] at h; simp at h
          | some pr =>
            obtain ⟨t2, rest2⟩ := pr
            rw [hw] at h
            have hgt := (wait_spec hw).1
            simp only [Option.some.injEq, Prod.mk.injEq, Except.ok.injEq] at h
            obtain ⟨hid, hst2, hrest⟩ := h
            subst hst2
            rw [hland, h3] at hid
            rw [encode_eq t2 st.machine_id 0 hm0 (by omega) (by omega)
              (by omega)] at hid
            unfold Inv MAX_MACHINE_ID MAX_SEQUENCE key
            dsimp only
            rw [hland, h3]
            refine ⟨⟨by omega, by omega, by omega, by omega⟩, rfl, by omega,
              by omega, by omega⟩
        · rw [if_neg h3] at h
          rw [hland] at h3
          have hsv : (st.sequence + 1) % 4096 = st.sequence + 1 := by omega
          simp only [Option.some.injEq, Prod.mk.injEq, Except.ok.injEq] at h
          obtain ⟨hid, hst2, hrest⟩ := h
          subst hst2
          rw [hland, hsv] at hid
          rw [encode_eq timestamp st.machine_id (st.sequence + 1) hm0 (by omega)
            (by omega) (by omega)] at hid
          unfold Inv MAX_MACHINE_ID MAX_SEQUENCE key
          dsimp only
          rw [hland, hsv]
          refine ⟨⟨by omega, by omega, by omega, by omega⟩, rfl, by omega,
            by omega, by omega⟩
      · rw [if_neg h2] at h
        have hgt : st.last_timestamp < timestamp := by omega
        simp only [Option.some.injEq, Prod.mk.injEq, Except.ok.injEq] at h
        obtain ⟨hid, hst2, hrest⟩ := h
        subst hst2
        rw [encode_eq timestamp st.machine_id 0 hm0 (by omega) (by omega)
          (by omega)] at hid
        unfold Inv MAX_MACHINE_ID MAX_SEQUENCE key
        dsimp only
        refine ⟨⟨by omega, by omega, by omega, by omega⟩, rfl, by omega,
          by omega, by omega⟩

/-- A successful run of `n` calls preserves the invariant and produces a
list of IDs that, prefixed with the starting state's encoded value,
is strictly increasing. -/
theorem genRun_chain (n : Nat) (st : SnowflakeGenerator) (clock : List Int)
    {ids : List Int} {stf : SnowflakeGenerator} {rest : List Int}
    (hInv : Inv st)
    (h : genRun st clock n = some (ids, stf, rest)) :
    Inv stf ∧ List.Chain' (fun a b => a < b) (key st :: ids) := by
  induction n generalizing st clock ids stf rest with
  | zero =>
    simp only [genRun, Option.some.injEq, Prod.mk.injEq] at h
    obtain ⟨rfl, rfl, rfl⟩ := h
    exact ⟨hInv, List.chain'_singleton _⟩
  | succ n ih =>
    rw [genRun] at h
    cases hg : generate_id st clock with
    | none => rw [hg] at h; simp at h
    | some res =>
      obtain ⟨r, st2, clock2⟩ := res
      rw [hg] at h
      cases r with
      | error e => simp at h
      | ok id =>
        dsimp only at h
        cases hr : genRun st2 clock2 n with
        | none => rw [hr] at h; simp at h
        | some res2 =>
          obtain ⟨ids2, stf2, rest2⟩ := res2
          rw [hr] at h
          dsimp only at h
          simp only [Option.some.injEq, Prod.mk.injEq] at h
          obtain ⟨hids, hstf, hrest⟩ := h
          obtain ⟨hInv2, hmach, hle, hkey, hid⟩ := generate_id_ok hInv hg
          obtain ⟨hInvf, hchain⟩ := ih st2 clock2 hInv2 hr
          subst hids hstf
          refine ⟨hInvf, ?_⟩
          rw [hid]
          exact List.chain'_cons.mpr ⟨hkey, hchain⟩

theorem init_machine {m : Int} {st : SnowflakeGenerator}
    (h : SnowflakeGenerator.init m = .ok st) : st.machine_id = m := by
  unfold SnowflakeGenerator.init at h
  by_cases hc : m < 0 ∨ m > MAX_MACHINE_ID
  · rw [if_pos hc] at h; simp at h
  · rw [if_neg hc] at h
    simp only [Except.ok.injEq] at h
    subst h
    rfl

/-- C1: for every sequence of successful `generate_id` calls on one
instance under a non-decreasing clock, the returned IDs are strictly
increasing in call order. -/
theorem generate_id_monotonic (machine_id : Int) (st0 stf : SnowflakeGenerator)
    (clock rest : List Int) (n : Nat) (ids : List Int)
    (hinit : SnowflakeGenerator.init machine_id = .ok st0)
    (hclock : clockNondecreasing clock = true)
    (hrun : genRun st0 clock n = some (ids, stf, rest)) :
    List.Chain' (fun a b => a < b) ids :=
  ((genRun_chain n st0 clock (init_Inv hinit) hrun).2).tail

theorem generate_id_monotonic_witness :
    List.Chain' (fun a b => a < b) [(4194304 : Int), 4194305, 8388608] :=
  generate_id_monotonic 0
    { machine_id := 0, sequence := 0, last_timestamp := -1 }
    { machine_id := 0, sequence := 0, last_timestamp := 1735689600002 }
    [1735689600001, 1735689600001, 1735689600002] [] 3
    [4194304, 4194305, 8388608] rfl rfl rfl

/-- C2: construction succeeds for `machine_id` in `[0, 1023]`, producing
`sequence = 0` and the `last_timestamp = -1` sentinel, and fails with
`InvalidConfiguration` for any `machine_id` outside `[0, 1023]`. -/
theorem init_spec (machine_id : Int) :
    (0 ≤ machine_id → machine_id ≤ 1023 →
      SnowflakeGenerator.init machine_id =
        .ok { machine_id := machine_id, sequence := 0, last_timestamp := -1 }) ∧
    ((machine_id < 0 ∨ 1023 < machine_id) →
      SnowflakeGenerator.init machine_id = .error .invalidConfiguration) := by
  have hM : MAX_MACHINE_ID = (1023 : Int) := rfl
  unfold SnowflakeGenerator.init
  constructor
  · intro ha hb
    rw [if_neg (by omega)]
  · intro hab
    rw [if_pos (by omega)]

theorem init_spec_witness :
    SnowflakeGenerator.init 5 =
      .ok { machine_id := 5, sequence := 0, last_timestamp := -1 } ∧
    SnowflakeGenerator.init 1024 = .error .invalidConfiguration ∧
    SnowflakeGenerator.init (-1) = .error .invalidConfiguration :=
  ⟨(init_spec 5).1 (by decide) (by decide),
    (init_spec 1024).2 (by decide),
    (init_spec (-1)).2 (by decide)⟩

/-- C3: when the observed clock reading is strictly below
`last_timestamp`, `generate_id` fails with `ClockRegression` and the
state of the generator is returned unchanged. -/
theorem clock_regression_spec (st : SnowflakeGenerator) (timestamp : Int)
    (rest : List Int) (h : timestamp < st.last_timestamp) :
    generate_id st (timestamp :: rest) =
      some (.error .clockRegression, st, rest) := by
  simp only [generate_id]
  rw [if_pos h]

theorem clock_regression_spec_witness :
    generate_id { machine_id := 7, sequence := 3, last_timestamp := 10 } [9] =
      some (.error .clockRegression,
        { machine_id := 7, sequence := 3, last_timestamp := 10 }, []) :=
  clock_regression_spec { machine_id := 7, sequence := 3, last_timestamp := 10 }
    9 [] (by decide)

/-- C4: when the clock equals `last_timestamp` and `sequence = 4095`
(the increment wraps to 0), `generate_id` busy-polls the clock for a
strictly later reading `t2`, returns the ID encoding `(t2, sequence 0)`,
and the decoded sequence and timestamp fields of that ID are `0` and
`t2 > last_timestamp`; no sequence value is reused in the exhausted
millisecond. -/
theorem sequence_overflow_spec (st : SnowflakeGenerator) (rest : List Int)
    (t2 : Int) (rest2 : List Int) (hInv : Inv st) (hseq : st.sequence = 4095)
    (hwait : _wait_next_millis st.last_timestamp rest = some (t2, rest2)) :
    generate_id st (st.last_timestamp :: rest) =
      some (.ok (encode t2 st.machine_id 0),
        { machine_id := st.machine_id, sequence := 0, last_timestamp := t2 },
        rest2) ∧
    st.last_timestamp < t2 ∧
    (parse_id (encode t2 st.machine_id 0)).sequence = 0 ∧
    (parse_id (encode t2 st.machine_id 0)).timestamp = t2 := by
  obtain ⟨hm0, hm1, hs0, hs1⟩ := hInv
  unfold MAX_MACHINE_ID at hm1
  unfold MAX_SEQUENCE at hs1
  have hgt := (wait_spec hwait).1
  have h0 : Int.land (st.sequence + 1) MAX_SEQUENCE = 0 := by
    unfold MAX_SEQUENCE
    rw [land4095_eq, hseq]
    decide
  have hcomp : generate_id st (st.last_timestamp :: rest) =
      some (.ok (encode t2 st.machine_id 0),
        { machine_id := st.machine_id, sequence := 0, last_timestamp := t2 },
        rest2) := by
    simp only [generate_id]
    rw [if_neg (by omega), if_pos trivial, if_pos h0, hwait]
    rw [h0]
  obtain ⟨hts, hmach, hsq⟩ :=
    parse_encode t2 st.machine_id 0 hm0 (by omega) (by omega) (by omega)
  exact ⟨hcomp, hgt, hsq, hts⟩

theorem sequence_overflow_spec_witness :
    generate_id
        { machine_id := 3, sequence := 4095, last_timestamp := 1735689600005 }
        [1735689600005, 1735689600005, 1735689600007] =
      some (.ok (encode 1735689600007 3 0),
        { machine_id := 3, sequence := 0, last_timestamp := 1735689600007 },
        []) ∧
    (1735689600005 : Int) < 1735689600007 ∧
    (parse_id (encode 1735689600007 3 0)).sequence = 0 ∧
    (parse_id (encode 1735689600007 3 0)).timestamp = 1735689600007 :=
  sequence_overflow_spec
    { machine_id := 3, sequence := 4095, last_timestamp := 1735689600005 }
    [1735689600005, 1735689600007] 1735689600007 [] (by decide) rfl rfl

/-- C5: every successful `generate_id` call returns exactly
`((now - EPOCH) << 22) | (machine_id << 12) | sequence`, where `now` is
the timestamp stored into `last_timestamp` by that call, `machine_id` is
fixed at construction, and `sequence` is the post-update sequence value;
`EPOCH = 1735689600000`. -/
theorem generate_id_formula (st : SnowflakeGenerator) (clock : List Int)
    (id : Int) (st2 : SnowflakeGenerator) (rest : List Int)
    (h : generate_id st clock = some (.ok id, st2, rest)) :
    id = Int.lor
        (Int.lor ((st2.last_timestamp - 1735689600000) <<< (22 : Int))
          (st.machine_id <<< (12 : Int)))
        st2.sequence :=
  (generate_ok_shape h).1

theorem generate_id_formula_witness :
    (4194304 : Int) = Int.lor
        (Int.lor (((1735689600001 : Int) - 1735689600000) <<< (22 : Int))
          ((0 : Int) <<< (12 : Int)))
        (0 : Int) :=
  generate_id_formula { machine_id := 0, sequence := 0, last_timestamp := -1 }
    [1735689600001] 4194304
    { machine_id := 0, sequence := 0, last_timestamp := 1735689600001 } [] rfl

/-- C6: parsing an ID produced by `generate_id` recovers the instance's
`machine_id`, a sequence in `[0, 4095]`, and the timestamp stored by
that call (the epoch plus the encoded offset); and the known vector
`offset 1000, node 0, sequence 0` decodes to absolute timestamp
`1735689601000`. -/
theorem parse_generate_roundtrip :
    (∀ (st : SnowflakeGenerator) (clock : List Int) (id : Int)
        (st2 : SnowflakeGenerator) (rest : List Int), Inv st →
      generate_id st clock = some (.ok id, st2, rest) →
      (parse_id id).machine_id = st.machine_id ∧
        0 ≤ (parse_id id).sequence ∧ (parse_id id).sequence ≤ 4095 ∧
        (parse_id id).timestamp = st2.last_timestamp) ∧
    (parse_id ((1000 : Int) <<< (22 : Int))).timestamp = 1735689601000 := by
  constructor
  · intro st clock id st2 rest hInv h
    obtain ⟨hInv2, hmach, hle, hkey, hid⟩ := generate_id_ok hInv h
    obtain ⟨hshape, _, _⟩ := generate_ok_shape h
    obtain ⟨hm0, hm1, _, _⟩ := hInv
    obtain ⟨_, _, hs0, hs1⟩ := hInv2
    unfold MAX_MACHINE_ID at hm1
    unfold MAX_SEQUENCE at hs1
    obtain ⟨hts, hmc, hsq⟩ := parse_encode st2.last_timestamp st.machine_id
      st2.sequence hm0 (by omega) hs0 (by omega)
    rw [hshape]
    refine ⟨hmc, ?_, ?_, hts⟩
    · rw [hsq]; omega
    · rw [hsq]; omega
  · decide

theorem parse_generate_roundtrip_witness :
    (parse_id (4194304 : Int)).machine_id = 0 ∧
    0 ≤ (parse_id (4194304 : Int)).sequence ∧
    (parse_id (4194304 : Int)).sequence ≤ 4095 ∧
    (parse_id (4194304 : Int)).timestamp = 1735689600001 :=
  parse_generate_roundtrip.1
    { machine_id := 0, sequence := 0, last_timestamp := -1 }
    [1735689600001] 4194304
    { machine_id := 0, sequence := 0, last_timestamp := 1735689600001 } []
    (by decide) rfl

/-- C7: `parse_id` is a total structural decode: for every integer input
(all 64-bit values included) it returns the record whose fields are the
explicit shift/mask arithmetic below, and its human-readable UTC string
is the total rendering of the decoded timestamp. -/
theorem parse_id_total (x : Int) :
    (parse_id x).id = x ∧
    (parse_id x).timestamp = x / 4194304 + 1735689600000 ∧
    (parse_id x).machine_id = x / 4096 % 1024 ∧
    (parse_id x).sequence = x % 4096 ∧
    (parse_id x).datetime =
      formatUTC ((x / 4194304 + 1735689600000) / 1000) := by
  obtain ⟨h1, h2, h3, h4⟩ := parse_fields x
  refine ⟨h1, h2, h3, h4, ?_⟩
  show formatUTC ((x >>> (22 : Int) + EPOCH) / 1000) =
    formatUTC ((x / 4194304 + 1735689600000) / 1000)
  rw [shiftRight22_eq]
  rfl

/-- C8 counterexample: from the freshly constructed state, a clock
reading of `0` (before the epoch) makes `generate_id` succeed with a
negative ID, so the claim that every reachable state and clock value
yields `0 ≤ id < 2^63` is false: the code never masks the timestamp
offset. -/
theorem generate_id_negative_counterexample :
    generate_id { machine_id := 0, sequence := 0, last_timestamp := -1 } [0] =
      some (.ok (encode 0 0 0),
        { machine_id := 0, sequence := 0, last_timestamp := 0 }, []) ∧
    encode 0 0 0 < 0 := by
  refine ⟨rfl, ?_⟩
  rw [encode_eq 0 0 0 (by decide) (by decide) (by decide) (by decide)]
  decide

/-- C8 (amended): provided every clock reading lies in the 41-bit window
`[EPOCH, EPOCH + 2^41)`, every ID returned by `generate_id` from an
invariant state has its reserved top bit clear: `0 ≤ id < 2^63`. -/
theorem generate_id_63_bit_range (st : SnowflakeGenerator) (clock : List Int)
    (id : Int) (st2 : SnowflakeGenerator) (rest : List Int)
    (hInv : Inv st)
    (hclock : ∀ x ∈ clock, EPOCH ≤ x ∧ x < EPOCH + 2 ^ 41)
    (h : generate_id st clock = some (.ok id, st2, rest)) :
    0 ≤ id ∧ id < 2 ^ 63 := by
  obtain ⟨hInv2, hmach, hle, hkey, hid⟩ := generate_id_ok hInv h
  obtain ⟨_, _, hmem⟩ := generate_ok_shape h
  obtain ⟨hr1, hr2⟩ := hclock st2.last_timestamp hmem
  obtain ⟨hm0, hm1, _, _⟩ := hInv
  obtain ⟨_, _, hs0, hs1⟩ := hInv2
  unfold MAX_MACHINE_ID at hm1
  unfold MAX_SEQUENCE at hs1
  unfold key at hid
  rw [hmach] at hid
  have hE : EPOCH = 1735689600000 := rfl
  omega

theorem generate_id_63_bit_range_witness :
    (0 : Int) ≤ 0 ∧ (0 : Int) < 2 ^ 63 :=
  generate_id_63_bit_range
    { machine_id := 0, sequence := 0, last_timestamp := -1 }
    [1735689600000] 0
    { machine_id := 0, sequence := 0, last_timestamp := 1735689600000 } []
    (by decide) (by decide) rfl

/-- C9: two instances constructed with distinct machine ids that observe
the identical clock reading produce different IDs, and parsing each ID
recovers the respective machine id. -/
theorem distinct_nodes_distinct_ids
    (m1 m2 now : Int) (st1 st2 st1' st2' : SnowflakeGenerator)
    (c1 c2 r1 r2 : List Int) (id1 id2 : Int)
    (h1 : SnowflakeGenerator.init m1 = .ok st1)
    (h2 : SnowflakeGenerator.init m2 = .ok st2)
    (hne : m1 ≠ m2)
    (hg1 : generate_id st1 (now :: c1) = some (.ok id1, st1', r1))
    (hg2 : generate_id st2 (now :: c2) = some (.ok id2, st2', r2)) :
    id1 ≠ id2 ∧
      (parse_id id1).machine_id = m1 ∧ (parse_id id2).machine_id = m2 := by
  have hp1 : (parse_id id1).machine_id = m1 := by
    obtain ⟨hInv1', _, _, _, _⟩ := generate_id_ok (init_Inv h1) hg1
    obtain ⟨hshape1, _, _⟩ := generate_ok_shape hg1
    obtain ⟨hm0, hm1, _, _⟩ := init_Inv h1
    obtain ⟨_, _, hs0, hs1⟩ := hInv1'
    unfold MAX_MACHINE_ID at hm1
    unfold MAX_SEQUENCE at hs1
    rw [hshape1, (parse_encode st1'.last_timestamp st1.machine_id
      st1'.sequence hm0 (by omega) hs0 (by omega)).2.1]
    exact init_machine h1
  have hp2 : (parse_id id2).machine_id = m2 := by
    obtain ⟨hInv2', _, _, _, _⟩ := generate_id_ok (init_Inv h2) hg2
    obtain ⟨hshape2, _, _⟩ := generate_ok_shape hg2
    obtain ⟨hm0, hm1, _, _⟩ := init_Inv h2
    obtain ⟨_, _, hs0, hs1⟩ := hInv2'
    unfold MAX_MACHINE_ID at hm1
    unfold MAX_SEQUENCE at hs1
    rw [hshape2, (parse_encode st2'.last_timestamp st2.machine_id
      st2'.sequence hm0 (by omega) hs0 (by omega)).2.1]
    exact init_machine h2
  refine ⟨?_, hp1, hp2⟩
  intro he
  rw [he, hp2] at hp1
  exact hne hp1.symm

theorem distinct_nodes_distinct_ids_witness :
    (515903488 : Int) ≠ 515907584 ∧
      (parse_id (515903488 : Int)).machine_id = 1 ∧
      (parse_id (515907584 : Int)).machine_id = 2 :=
  distinct_nodes_distinct_ids 1 2 1735689600123
    { machine_id := 1, sequence := 0, last_timestamp := -1 }
    { machine_id := 2, sequence := 0, last_timestamp := -1 }
    { machine_id := 1, sequence := 0, last_timestamp := 1735689600123 }
    { machine_id := 2, sequence := 0, last_timestamp := 1735689600123 }
    [] [] [] [] 515903488 515907584 rfl rfl (by decide) rfl rfl

/-- C10: for every integer input to `parse_id` — negative values and
values wider than 64 bits included — the decoded `machine_id` lies in
`[0, 1023]` and the decoded `sequence` lies in `[0, 4095]`. -/
theorem parse_id_field_ranges (x : Int) :
    0 ≤ (parse_id x).machine_id ∧ (parse_id x).machine_id ≤ 1023 ∧
    0 ≤ (parse_id x).sequence ∧ (parse_id x).sequence ≤ 4095 := by
  obtain ⟨h1, h2, h3, h4⟩ := parse_fields x
  rw [h3, h4]
  omega

end Snowflake
